import Mathlib

/-!
Shallow embedding of the invoice line-item extraction pipeline
(`extractor.py`) and its API wrapper (`app.py`).

Conventions of the embedding:
* Python strings are Lean `String`s; the handful of string primitives the
  source uses (`.lower()`, `.strip()`, `.split()`, `" ".join`, `in`,
  `.isdigit()`, `.replace`) are modelled by executable helpers over
  `List Char`, restricted to ASCII, which is all the source's literals and
  the pipeline's vocabulary use.
* Python `float` values are modelled as exact rationals `ℚ`; `float(s)` is
  modelled on the fragment of its grammar the source can meet (optional
  sign, digits, at most one decimal point, surrounding whitespace);
  exponent, underscore and `inf`/`nan` forms are outside the model.
* The OCR dictionary `{"left": ..., "top": ..., "text": ...}` consumed by
  `group_tokens_by_line` is modelled as the list of zipped triples
  (`Tok`), exactly what the source's `zip` iterates over.
* `None`-or-value Python results become `Option`; a Python pair result
  becomes a Lean pair.
-/

/-- Lowercase one ASCII character, as Python `str.lower` does on the
ASCII fragment used throughout the source. -/
def lowerChar (c : Char) : Char :=
  if 65 ≤ c.toNat ∧ c.toNat ≤ 90 then Char.ofNat (c.toNat + 32) else c

/-- Model of Python `str.lower` (ASCII fragment). -/
def lowerStr (s : String) : String := ⟨s.data.map lowerChar⟩

/-- Trim leading and trailing whitespace from a character list; model of
Python `str.strip()`. -/
def trimChars (l : List Char) : List Char :=
  ((l.dropWhile Char.isWhitespace).reverse.dropWhile Char.isWhitespace).reverse

/-- Model of Python `str.strip()`. -/
def trimStr (s : String) : String := ⟨trimChars s.data⟩

/-- Does `s` start with `pat`? Helper for substring search. -/
def listPre (pat s : List Char) : Bool :=
  match pat, s with
  | [], _ => true
  | _ :: _, [] => false
  | p :: ps, c :: cs => p == c && listPre ps cs

/-- Does `s` contain `pat` as a contiguous substring? Helper for the
Python `in` operator on strings. -/
def listSub (pat : List Char) : List Char → Bool
  | [] => pat.isEmpty
  | c :: rest => listPre pat (c :: rest) || listSub pat rest

/-- Model of Python `pat in s` for strings. -/
def strContains (s pat : String) : Bool := listSub pat.data s.data

/-- Split a character list on whitespace runs, dropping empty pieces;
model of Python `str.split()` with no argument. `acc` holds the current
piece reversed. -/
def splitWsGo : List Char → List Char → List (List Char)
  | [], acc => if acc.isEmpty then [] else [acc.reverse]
  | c :: rest, acc =>
    if Char.isWhitespace c then
      if acc.isEmpty then splitWsGo rest [] else acc.reverse :: splitWsGo rest []
    else splitWsGo rest (c :: acc)

/-- Model of Python `str.split()` (whitespace split, no empty parts). -/
def splitWs (s : String) : List String := (splitWsGo s.data []).map (fun l => ⟨l⟩)

/-- Join character lists with a separator; model of Python `sep.join`. -/
def joinSep (sep : List Char) : List (List Char) → List Char
  | [] => []
  | [x] => x
  | x :: y :: rest => x ++ sep ++ joinSep sep (y :: rest)

/-- Model of Python `" ".join(parts)`. -/
def joinSpace (parts : List String) : String := ⟨joinSep [' '] (parts.map String.data)⟩

/-- Model of Python `"".join(parts)`. -/
def concatStrs (parts : List String) : String := ⟨(parts.map String.data).flatten⟩

/-- Value of a list of decimal digits, most significant first. -/
def digitsToNat (l : List Char) : Nat :=
  l.foldl (fun a c => a * 10 + (c.toNat - 48)) 0

/-- Model of Python `float(s)` on the plain decimal fragment of its
grammar: optional surrounding whitespace, optional sign, digits with at
most one decimal point, at least one digit. Any other input yields
`none` (Python would raise `ValueError`, which `as_number` catches).
Exponent, underscore and `inf`/`nan` forms of `float` are outside this
model; the source never feeds them to `float` on the documented inputs. -/
def parseDec (s : String) : Option ℚ :=
  let t := trimChars s.data
  let signed : ℚ × List Char :=
    match t with
    | '-' :: r => (-1, r)
    | '+' :: r => (1, r)
    | _ => (1, t)
  let ip := signed.2.takeWhile (fun c => c ≠ '.')
  let rest := signed.2.dropWhile (fun c => c ≠ '.')
  match rest with
  | [] =>
    if ip.isEmpty then none
    else if ip.all Char.isDigit then some (signed.1 * (digitsToNat ip : ℚ)) else none
  | _ :: frac =>
    if frac.contains '.' then none
    else if ip.isEmpty && frac.isEmpty then none
    else if ip.all Char.isDigit && frac.all Char.isDigit then
      some (signed.1 * ((digitsToNat ip : ℚ) + (digitsToNat frac : ℚ) / (10 : ℚ) ^ frac.length))
    else none

/-- Model of Python `s.replace(",", "")`. -/
def removeCommas (s : String) : String := ⟨s.data.filter (fun c => c ≠ ',')⟩

/-- Embedding of `as_number` (extractor.py lines 125-129):
`float(value.replace(",", ""))`, with any parse failure caught and turned
into `None`. -/
def as_number (value : String) : Option ℚ := parseDec (removeCommas value)

/-- Embedding of `strip_serial` (extractor.py lines 132-137): drop a
leading all-digit word from the description. Python `str.isdigit` is true
exactly on non-empty all-digit strings. -/
def strip_serial (desc : String) : String :=
  match splitWs desc with
  | [] => desc
  | p :: rest =>
    if !p.data.isEmpty && p.data.all Char.isDigit then joinSpace rest else desc

/-- One OCR token: the zipped triple `(left, top, text)` that
`group_tokens_by_line` iterates over. -/
structure Tok where
  x : Int
  y : Int
  text : String
  deriving DecidableEq

/-- A row as the source builds it: a list of `(x, text)` pairs. -/
abbrev Row := List (Int × String)

/-- Stable insertion of a pair into a list sorted by first component;
equal keys keep their original relative order, as Python `sorted` does. -/
def insLE (a : Int × String) : List (Int × String) → List (Int × String)
  | [] => [a]
  | b :: bs => if b.1 < a.1 then b :: insLE a bs else a :: b :: bs

/-- Stable sort by x-coordinate; model of
`sorted(current_line, key=lambda v: v[0])`. -/
def sortRow : List (Int × String) → List (Int × String)
  | [] => []
  | a :: rest => insLE a (sortRow rest)

/-- Stable insertion for integers. -/
def insInt (a : Int) : List Int → List Int
  | [] => [a]
  | b :: bs => if b < a then b :: insInt a bs else a :: b :: bs

/-- Ascending sort of integers; model of `xs.sort()`. -/
def sortInt : List Int → List Int
  | [] => []
  | a :: rest => insInt a (sortInt rest)

/-- Core loop of `group_tokens_by_line` (extractor.py lines 48-66),
kept over full `Tok`s (retaining `y`) so that the grouping relation
between tokens and rows can be stated; the public function below projects
each grouped token to the `(x, cleaned_text)` pair the source stores.
`cur` is the `current_line` buffer (tokens carry their cleaned text),
`prevY` is `previous_y`. -/
def groupRaw (T : Int) : List Tok → List Tok → Option Int → List (List Tok)
  | [], cur, _ => if cur.isEmpty then [] else [cur]
  | t :: rest, cur, prevY =>
    let cleaned := trimStr t.text
    if cleaned.data.isEmpty then groupRaw T rest cur prevY
    else
      match prevY with
      | none => groupRaw T rest (cur ++ [⟨t.x, t.y, cleaned⟩]) (some t.y)
      | some p =>
        if |t.y - p| ≤ T then groupRaw T rest (cur ++ [⟨t.x, t.y, cleaned⟩]) (some t.y)
        else cur :: groupRaw T rest [⟨t.x, t.y, cleaned⟩] (some t.y)

/-- Embedding of `group_tokens_by_line` (extractor.py lines 43-68):
group tokens into rows by y-proximity, each finished row sorted by x and
holding `(x, cleaned_text)` pairs. -/
def group_tokens_by_line (toks : List Tok) (threshold : Int := 12) : List Row :=
  (groupRaw threshold toks [] none).map (fun r => sortRow (r.map (fun t => (t.x, t.text))))

/-- Lower-cased space-joined text of a row; the source computes this both
in `find_table_header` (`merged`) and in `extract_line_items`
(`row_text_full`). -/
def rowText (row : Row) : String := lowerStr (joinSpace (row.map (fun t => t.2)))

/-- Header predicate of `find_table_header` (extractor.py lines 85-86). -/
def headerPred (row : Row) : Bool :=
  let merged := rowText row
  (strContains merged "description" && strContains merged "qty" && strContains merged "rate")
    || (strContains merged "qty" && (strContains merged "gross" || strContains merged "amount"))

/-- The `positions` dictionary of `find_table_header`: the last-seen
x-position of each recognized column label. -/
structure Positions where
  desc : Option Int
  qty : Option Int
  rate : Option Int
  amt : Option Int
  deriving DecidableEq

/-- One step of the label-classification loop (extractor.py lines
96-105): if/elif chain on the lower-cased word, later matches overwrite
earlier ones for the same slot. -/
def updatePos (p : Positions) (x : Int) (word : String) : Positions :=
  let w := lowerStr word
  if strContains w "desc" then { p with desc := some x }
  else if strContains w "qty" then { p with qty := some x }
  else if strContains w "rate" then { p with rate := some x }
  else if strContains w "amount" || strContains w "gross" || strContains w "net" then
    { p with amt := some x }
  else p

/-- Classify every token of the header row (extractor.py lines 94-105). -/
def positionsOf (row : Row) : Positions :=
  row.foldl (fun p t => updatePos p t.1 t.2) ⟨none, none, none, none⟩

/-- The sorted list `xs` of present label x-positions (extractor.py
lines 108-109). Python iterates the dict values in insertion order
`desc, qty, rate, amt`; the subsequent sort makes that order immaterial. -/
def posList (p : Positions) : List Int :=
  sortInt ([p.desc, p.qty, p.rate, p.amt].filterMap id)

/-- Column boundary mapping: the `boundaries` dictionary. A key that the
source never inserts is `none`. -/
structure Bounds where
  desc_end : Option ℚ
  qty_end : Option ℚ
  rate_end : Option ℚ
  deriving DecidableEq

/-- Boundary construction from the sorted positions (extractor.py lines
111-117): midpoints of adjacent positions, one per `len(xs) > k` guard. -/
def boundsFromXs : List Int → Bounds
  | x0 :: x1 :: x2 :: x3 :: _ =>
    ⟨some (((x0 : ℚ) + (x1 : ℚ)) / 2), some (((x1 : ℚ) + (x2 : ℚ)) / 2),
      some (((x2 : ℚ) + (x3 : ℚ)) / 2)⟩
  | x0 :: x1 :: x2 :: [] =>
    ⟨some (((x0 : ℚ) + (x1 : ℚ)) / 2), some (((x1 : ℚ) + (x2 : ℚ)) / 2), none⟩
  | x0 :: x1 :: [] => ⟨some (((x0 : ℚ) + (x1 : ℚ)) / 2), none, none⟩
  | _ => ⟨none, none, none⟩

/-- Boundaries inferred from a header row. -/
def boundariesOf (row : Row) : Bounds := boundsFromXs (posList (positionsOf row))

/-- The header scan loop (extractor.py lines 82-89): first row matching
the predicate, with its index. -/
def findHeaderAux : List Row → Nat → Option (Nat × Row)
  | [], _ => none
  | r :: rest, i => if headerPred r then some (i, r) else findHeaderAux rest (i + 1)

/-- Embedding of `find_table_header` (extractor.py lines 74-119):
`(None, None)` when no row matches, otherwise the index of the first
matching row and the boundary mapping built from it. -/
def find_table_header (rows : List Row) : Option Nat × Option Bounds :=
  match findHeaderAux rows 0 with
  | none => (none, none)
  | some (i, r) => (some i, some (boundariesOf r))

/-- Which of the four buckets a token falls into. -/
inductive Col where
  | desc
  | qty
  | rate
  | amt
  deriving DecidableEq

/-- Bucket assignment of one token (extractor.py lines 166-174): the
if/elif chain `x < boundaries.get(key, 99999)`, absent keys defaulting to
the sentinel `99999`. -/
def assignCol (b : Bounds) (x : Int) : Col :=
  if (x : ℚ) < b.desc_end.getD 99999 then Col.desc
  else if (x : ℚ) < b.qty_end.getD 99999 then Col.qty
  else if (x : ℚ) < b.rate_end.getD 99999 then Col.rate
  else Col.amt

/-- The texts of the tokens of `row` landing in bucket `c`, in row
order — exactly the contents of the source's `desc_col`/`qty_col`/
`rate_col`/`amt_col` lists. -/
def bucket (b : Bounds) (row : Row) (c : Col) : List String :=
  (row.filter (fun t => assignCol b t.1 == c)).map (fun t => t.2)

/-- First amount-bucket token that coerces to a number (extractor.py
lines 180-186). -/
def firstNum : List String → Option ℚ
  | [] => none
  | t :: rest =>
    match as_number t with
    | some n => some n
    | none => firstNum rest

/-- One extracted invoice line. -/
structure LineItem where
  item_name : String
  item_quantity : ℚ
  item_rate : ℚ
  item_amount : ℚ
  deriving DecidableEq

/-- Per-row body of the extraction loop (extractor.py lines 161-196),
after the stop/skip markers have been handled: bucket the tokens, build
the description, coerce quantity/rate/amount, and either drop the row or
emit one line item. `quantity if quantity else 1.0` is falsy on both
`None` and `0.0`, likewise for the rate. -/
def rowToItem (b : Bounds) (row : Row) : Option LineItem :=
  let description := strip_serial (trimStr (joinSpace (bucket b row Col.desc)))
  let quantity := as_number (concatStrs (bucket b row Col.qty))
  let rate_val := as_number (concatStrs (bucket b row Col.rate))
  let amount_val := firstNum (bucket b row Col.amt)
  match amount_val with
  | none => none
  | some a =>
    if description.data.isEmpty then none
    else
      some
        { item_name := description
          item_quantity := match quantity with | none => 1 | some q => if q = 0 then 1 else q
          item_rate := match rate_val with | none => a | some r => if r = 0 then a else r
          item_amount := a }

/-- The row scan of `extract_line_items` (extractor.py lines 152-196):
skip on "category total", stop on "printed", otherwise emit the row's
item when it validates. -/
def itemsLoop (b : Bounds) : List Row → List LineItem
  | [] => []
  | row :: rest =>
    let txt := rowText row
    if strContains txt "category total" then itemsLoop b rest
    else if strContains txt "printed" then []
    else
      match rowToItem b row with
      | none => itemsLoop b rest
      | some it => it :: itemsLoop b rest

/-- Embedding of `extract_line_items` (extractor.py lines 143-198):
empty when the header index or the boundaries are `None`, otherwise the
scan of the rows strictly after the header. -/
def extract_line_items (rows : List Row) (hIdx : Option Nat) (bounds : Option Bounds) :
    List LineItem :=
  match hIdx, bounds with
  | some i, some b => itemsLoop b (rows.drop (i + 1))
  | _, _ => []

/-- One page of the result. -/
structure PageItems where
  page_no : String
  bill_items : List LineItem
  deriving DecidableEq

/-- The `data` object assembled by `extract_bill_info_from_url`
(extractor.py lines 222-231). -/
structure ExtractionResult where
  pagewise_line_items : List PageItems
  total_item_count : Nat
  reconciled_amount : ℚ
  deriving DecidableEq

/-- Assembly of the result object from the extracted items
(extractor.py lines 222-231). -/
def assembleResult (items : List LineItem) : ExtractionResult :=
  { pagewise_line_items := [⟨"1", items⟩]
    total_item_count := items.length
    reconciled_amount := (items.map (fun it => it.item_amount)).sum }

/-- The pure tail of `extract_bill_info_from_url` (extractor.py lines
215-231), starting from the grouped rows: locate the header, extract the
items, assemble the result. -/
def extractFromRows (rows : List Row) : ExtractionResult :=
  let hb := find_table_header rows
  assembleResult (extract_line_items rows hb.1 hb.2)

/-- The pure pipeline of `extract_bill_info_from_url` (extractor.py
lines 204-231) from the OCR token stream: the image download and OCR
collaborators are outside the model, their output being the `Tok` list. -/
def extract_bill_core (toks : List Tok) : ExtractionResult :=
  extractFromRows (group_tokens_by_line toks)

/-- Untyped JSON-like value, modelling the Python dictionaries that
cross the API boundary in `app.py` (dictionaries keep their key
insertion order). -/
inductive Val where
  | vnull : Val
  | vbool : Bool → Val
  | vnum : ℚ → Val
  | vstr : String → Val
  | varr : List Val → Val
  | vobj : List (String × Val) → Val

/-- Key lookup in an object's field list; model of Python dictionary
indexing (keys are unique in every dictionary the source builds). -/
def lookupKey : List (String × Val) → String → Option Val
  | [], _ => none
  | (k, v) :: rest, key => if k = key then some v else lookupKey rest key

/-- Field access on an object value. -/
def getField (v : Val) (key : String) : Option Val :=
  match v with
  | Val.vobj l => lookupKey l key
  | _ => none

/-- The keys of an object value, in order. -/
def keysOf (v : Val) : List String :=
  match v with
  | Val.vobj l => l.map (fun kv => kv.1)
  | _ => []

/-- One line-item dictionary (extractor.py lines 191-196). -/
def itemVal (it : LineItem) : Val :=
  Val.vobj
    [("item_name", Val.vstr it.item_name),
     ("item_quantity", Val.vnum it.item_quantity),
     ("item_rate", Val.vnum it.item_rate),
     ("item_amount", Val.vnum it.item_amount)]

/-- The ExtractionResult as the dictionary built at extractor.py lines
222-231 (the value under the pipeline's `"data"` key). -/
def resultVal (r : ExtractionResult) : Val :=
  Val.vobj
    [("pagewise_line_items",
      Val.varr (r.pagewise_line_items.map (fun p =>
        Val.vobj
          [("page_no", Val.vstr p.page_no),
           ("bill_items", Val.varr (p.bill_items.map itemVal))]))),
     ("total_item_count", Val.vnum r.total_item_count),
     ("reconciled_amount", Val.vnum r.reconciled_amount)]

/-- The dictionary returned by `extract_bill_info_from_url`
(extractor.py lines 220-232): the pipeline's own success envelope
`{"is_success": True, "data": <ExtractionResult>}`, computed from the
OCR token stream. -/
def extract_bill_info_from_url_val (toks : List Tok) : Val :=
  Val.vobj
    [("is_success", Val.vbool true),
     ("data", resultVal (extract_bill_core toks))]

/-- Embedding of the endpoint body `extract_bill_data` (app.py lines
10-28). Its input is the outcome of calling
`extract_bill_info_from_url`: `Except.ok` carries the token stream the
collaborators produced for the document (from which the pipeline's
return value is computed), `Except.error` a raised exception's message.
The `try`/`except Exception` wrapper makes the endpoint a total
function of that outcome — no exception passes its boundary. -/
def extract_bill_data (outcome : Except String (List Tok)) : Val :=
  match outcome with
  | Except.ok toks =>
    Val.vobj
      [("is_success", Val.vbool true),
       ("data", extract_bill_info_from_url_val toks),
       ("error", Val.vnull)]
  | Except.error e =>
    Val.vobj
      [("is_success", Val.vbool false),
       ("data", Val.vnull),
       ("error", Val.vstr ("Processing failed: " ++ e))]

/-- Is this header-row token classified into one of the four label
slots by the if/elif chain at extractor.py lines 96-105? -/
def isLabelTok (word : String) : Bool :=
  let w := lowerStr word
  strContains w "desc" || strContains w "qty" || strContains w "rate"
    || strContains w "amount" || strContains w "gross" || strContains w "net"

/-- Zero or one, according to whether an optional slot is filled. -/
def optCount (o : Option Int) : Nat :=
  match o with
  | none => 0
  | some _ => 1

/-- How many of the four label slots are filled. -/
def filledCount (p : Positions) : Nat :=
  optCount p.desc + optCount p.qty + optCount p.rate + optCount p.amt

/-- The token stream of the end-to-end scenario: a header line
`Description Qty Rate Amount` at y = 0 and an item line
`1 Widget 2 5.00 10.00` at y = 20. -/
def c2toks : List Tok :=
  [⟨10, 0, "Description"⟩, ⟨200, 0, "Qty"⟩, ⟨300, 0, "Rate"⟩, ⟨400, 0, "Amount"⟩,
   ⟨10, 20, "1"⟩, ⟨40, 20, "Widget"⟩, ⟨210, 20, "2"⟩, ⟨310, 20, "5.00"⟩, ⟨410, 20, "10.00"⟩]

/-! ## Theorems -/

/-- Claim C1, counterexample: with every boundary key absent, a token at
x = 100000 is placed in the amount bucket, not the description bucket,
refuting "with desc_end absent, every token of the row, whatever its
x-position, is placed in the description bucket". -/
theorem claim1_counterexample :
    bucket ⟨none, none, none⟩ [((100000 : Int), "10.00")] Col.desc = [] ∧
    bucket ⟨none, none, none⟩ [((100000 : Int), "10.00")] Col.amt = ["10.00"] := by
  decide

/-- Claim C1 (amended): a boundary key absent from the mapping is
replaced by the sentinel 99999, not by infinity. With desc_end absent, a
token goes to the description bucket exactly when its x-position is
below 99999; with all three boundaries absent, a token at or beyond
99999 falls through to the amount bucket. -/
theorem claim1_absent_boundary_is_sentinel (b : Bounds) (x : Int) :
    (b.desc_end = none → (assignCol b x = Col.desc ↔ (x : ℚ) < 99999)) ∧
    (b = ⟨none, none, none⟩ → (99999 : ℚ) ≤ (x : ℚ) → assignCol b x = Col.amt) := by
  constructor
  · intro h
    unfold assignCol
    rw [h]
    simp only [Option.getD_none]
    by_cases hx : (x : ℚ) < (99999 : ℚ)
    · simp [hx]
    · simp only [hx, if_false, iff_false]
      intro hcon
      split_ifs at hcon
  · intro hb hx
    subst hb
    unfold assignCol
    simp only [Option.getD_none]
    have hnx : ¬ ((x : ℚ) < (99999 : ℚ)) := not_lt.mpr hx
    simp [hnx]

/-- Claim C1 witness: concrete instantiations of both parts of the
amended statement. -/
theorem claim1_witness :
    assignCol ⟨none, none, none⟩ 100000 = Col.amt ∧
    assignCol ⟨none, some 250, none⟩ 50 = Col.desc := by
  constructor
  · exact (claim1_absent_boundary_is_sentinel ⟨none, none, none⟩ 100000).2 rfl (by norm_num)
  · exact ((claim1_absent_boundary_is_sentinel ⟨none, some 250, none⟩ 50).1 rfl).mpr (by norm_num)

/-- Claim C2: on the end-to-end scenario's token stream, the inferred
boundaries are desc_end = 105, qty_end = 250, rate_end = 350, and the
pipeline yields exactly one line item named "Widget" with quantity 2,
rate 5, amount 10, with total_item_count 1 and reconciled_amount 10. -/
theorem claim2_end_to_end :
    find_table_header (group_tokens_by_line c2toks) =
      (some 0, some ⟨some 105, some 250, some 350⟩) ∧
    extract_bill_core c2toks =
      { pagewise_line_items := [⟨"1", [⟨"Widget", 2, 5, 10⟩]⟩]
        total_item_count := 1
        reconciled_amount := 10 } := by
  with_unfolding_all decide

/-- Claim C5: for every token stream, the assembled result carries a
single page whose bill_items list has length total_item_count, and
reconciled_amount is the sum of item_amount over exactly those items. -/
theorem claim5_totals_consistent (toks : List Tok) :
    ∃ items : List LineItem,
      (extract_bill_core toks).pagewise_line_items = [⟨"1", items⟩] ∧
      (extract_bill_core toks).total_item_count = items.length ∧
      (extract_bill_core toks).reconciled_amount =
        (items.map (fun it => it.item_amount)).sum :=
  ⟨_, rfl, rfl, rfl⟩

/-- If no row satisfies the header predicate, the header scan reports
nothing, from any starting index. -/
theorem findHeaderAux_none_of (rows : List Row) (h : ∀ r ∈ rows, headerPred r = false) :
    ∀ n, findHeaderAux rows n = none := by
  induction rows with
  | nil => intro n; rfl
  | cons r rest ih =>
    intro n
    have hr : headerPred r = false := h r (List.mem_cons_self r rest)
    simp only [findHeaderAux, hr]
    exact ih (fun r' hr' => h r' (List.mem_cons_of_mem r hr')) (n + 1)

/-- Claim C6: when no row matches the header predicate, the pipeline
yields a result with zero items and zero reconciled amount, raising no
error (the embedding is a total function). -/
theorem claim6_no_header_zero_result (rows : List Row)
    (h : ∀ r ∈ rows, headerPred r = false) :
    (extractFromRows rows).total_item_count = 0 ∧
    (extractFromRows rows).reconciled_amount = 0 := by
  have hf : find_table_header rows = (none, none) := by
    unfold find_table_header
    rw [findHeaderAux_none_of rows h 0]
  show (assembleResult (extract_line_items rows (find_table_header rows).1
      (find_table_header rows).2)).total_item_count = 0 ∧
    (assembleResult (extract_line_items rows (find_table_header rows).1
      (find_table_header rows).2)).reconciled_amount = 0
  rw [hf]
  simp [extract_line_items, assembleResult]

/-- Claim C6 witness: a one-row document with no header-like text. -/
theorem claim6_witness :
    (extractFromRows [[((0 : Int), "hello")]]).total_item_count = 0 ∧
    (extractFromRows [[((0 : Int), "hello")]]).reconciled_amount = 0 :=
  claim6_no_header_zero_result [[((0 : Int), "hello")]] (by decide)

/-- Claim C8: numeric coercion strips commas and parses decimals,
returning a value for "1,234.50" and no value for "abc" and "" (as a
Lean function, as_number is total by construction and cannot raise). -/
theorem claim8_numeric_coercion :
    as_number "1,234.50" = some (2469 / 2 : ℚ) ∧
    as_number "abc" = none ∧
    as_number "" = none := by
  refine ⟨?_, by with_unfolding_all decide, by with_unfolding_all decide⟩
  have h : as_number "1,234.50" =
      some ((1 : ℚ) * (((1234 : ℕ) : ℚ) + ((50 : ℕ) : ℚ) / (10 : ℚ) ^ (2 : ℕ))) := rfl
  rw [h]
  norm_num

/-- Claim C3, counterexample: with threshold 12, tokens at y = 0, 10, 20
are grouped into one row (each is within 12 of its predecessor), yet the
first and last token of that row differ in y by 20 > 12, refuting "the
y-coordinates of any two tokens grouped into that same Row differ by at
most T". -/
theorem claim3_counterexample :
    groupRaw 12 [⟨0, 0, "a"⟩, ⟨1, 10, "b"⟩, ⟨2, 20, "c"⟩] [] none =
      [[⟨0, 0, "a"⟩, ⟨1, 10, "b"⟩, ⟨2, 20, "c"⟩]] ∧
    group_tokens_by_line [⟨0, 0, "a"⟩, ⟨1, 10, "b"⟩, ⟨2, 20, "c"⟩] 12 =
      [[(0, "a"), (1, "b"), (2, "c")]] ∧
    ¬ (|(0 : Int) - 20| ≤ 12) := by
  decide

/-- Invariant of the grouping loop: if the buffer is a chain of
y-close consecutive tokens, its last token's y is the remembered
previous y, and an unset previous y means an empty buffer, then every
emitted row is such a chain. -/
theorem groupRaw_chain (T : Int) :
    ∀ (toks : List Tok) (cur : List Tok) (prevY : Option Int),
      List.Chain' (fun a b => |a.y - b.y| ≤ T) cur →
      (∀ a ∈ cur.getLast?, prevY = some a.y) →
      (prevY = none → cur = []) →
      ∀ row ∈ groupRaw T toks cur prevY,
        List.Chain' (fun a b => |a.y - b.y| ≤ T) row := by
  intro toks
  induction toks with
  | nil =>
    intro cur prevY hc _ _ row hrow
    unfold groupRaw at hrow
    split at hrow
    · exact absurd hrow (List.not_mem_nil row)
    · rw [List.mem_singleton] at hrow
      subst hrow
      exact hc
  | cons t rest ih =>
    intro cur prevY hc hl hn row hrow
    unfold groupRaw at hrow
    by_cases hcl : (trimStr t.text).data.isEmpty
    · rw [if_pos hcl] at hrow
      exact ih cur prevY hc hl hn row hrow
    · rw [if_neg hcl] at hrow
      cases prevY with
      | none =>
        have hcur := hn rfl
        subst hcur
        refine ih [⟨t.x, t.y, trimStr t.text⟩] (some t.y) (List.chain'_singleton _) ?_ ?_ row hrow
        · intro a ha
          simp only [List.getLast?_singleton, Option.mem_def, Option.some.injEq] at ha
          subst ha
          rfl
        · intro hno
          exact absurd hno (Option.some_ne_none _)
      | some p =>
        have hrow2 : row ∈ (if |t.y - p| ≤ T then
            groupRaw T rest (cur ++ [⟨t.x, t.y, trimStr t.text⟩]) (some t.y)
          else cur :: groupRaw T rest [⟨t.x, t.y, trimStr t.text⟩] (some t.y)) := hrow
        by_cases hle : |t.y - p| ≤ T
        · rw [if_pos hle] at hrow2
          refine ih (cur ++ [⟨t.x, t.y, trimStr t.text⟩]) (some t.y) ?_ ?_ ?_ row hrow2
          · rw [List.chain'_append]
            refine ⟨hc, List.chain'_singleton _, ?_⟩
            intro a ha b hb
            simp only [List.head?_cons, Option.mem_def, Option.some.injEq] at hb
            subst hb
            have hpy : some p = some a.y := hl a ha
            have hay : p = a.y := by injection hpy
            show |a.y - t.y| ≤ T
            rw [abs_sub_comm, hay] at hle
            exact hle
          · intro a ha
            rw [List.getLast?_concat] at ha
            simp only [Option.mem_def, Option.some.injEq] at ha
            subst ha
            rfl
          · intro hno
            exact absurd hno (Option.some_ne_none _)
        · rw [if_neg hle] at hrow2
          rw [List.mem_cons] at hrow2
          cases hrow2 with
          | inl h =>
            subst h
            exact hc
          | inr h =>
            refine ih [⟨t.x, t.y, trimStr t.text⟩] (some t.y) (List.chain'_singleton _) ?_ ?_ row h
            · intro a ha
              simp only [List.getLast?_singleton, Option.mem_def, Option.some.injEq] at ha
              subst ha
              rfl
            · intro hno
              exact absurd hno (Option.some_ne_none _)

/-- Claim C3 (amended): within a row produced by the grouping loop, it
is consecutive tokens (in the order the loop accepted them) whose
y-coordinates differ by at most the threshold; the published rows are
exactly the x-sorted projections of these grouped lines. Two tokens of
the same row that are not consecutive may differ by more than T. -/
theorem claim3_consecutive_y_close (T : Int) (toks : List Tok) (row : List Tok)
    (h : row ∈ groupRaw T toks [] none) :
    List.Chain' (fun a b => |a.y - b.y| ≤ T) row ∧
    group_tokens_by_line toks T =
      (groupRaw T toks [] none).map (fun r => sortRow (r.map (fun t => (t.x, t.text)))) :=
  ⟨groupRaw_chain T toks [] none List.chain'_nil (by simp) (fun _ => rfl) row h, rfl⟩

/-- Claim C3 witness: a concrete two-token document grouped into one
row, whose consecutive y-gap is within the threshold. -/
theorem claim3_witness :
    List.Chain' (fun a b => |a.y - b.y| ≤ (12 : Int))
      ([⟨0, 0, "a"⟩, ⟨5, 9, "b"⟩] : List Tok) ∧
    group_tokens_by_line [⟨0, 0, "a"⟩, ⟨5, 9, "b"⟩] 12 =
      (groupRaw 12 [⟨0, 0, "a"⟩, ⟨5, 9, "b"⟩] [] none).map
        (fun r => sortRow (r.map (fun t => (t.x, t.text)))) :=
  claim3_consecutive_y_close 12 [⟨0, 0, "a"⟩, ⟨5, 9, "b"⟩]
    ([⟨0, 0, "a"⟩, ⟨5, 9, "b"⟩] : List Tok) (by decide)

/-- Claim C4: evaluation of the endpoint at a successful request (one
whose document produced an empty token stream). The response's `data`
field holds the pipeline's own `{"is_success": ..., "data": ...}`
envelope — whose keys are is_success and data, not the ExtractionResult
keys — so the ExtractionResult sits at `data.data`, not at `data`. On a
raised error the endpoint returns is_success false, data null, and a
human-readable error string, and (being a total function of the
outcome) propagates no exception. -/
theorem claim4_success_data_is_nested_envelope :
    getField (extract_bill_data (Except.ok [])) "data" =
      some (extract_bill_info_from_url_val []) ∧
    keysOf (extract_bill_info_from_url_val []) = ["is_success", "data"] ∧
    keysOf (resultVal (extract_bill_core [])) =
      ["pagewise_line_items", "total_item_count", "reconciled_amount"] ∧
    getField (extract_bill_data (Except.ok [])) "is_success" = some (Val.vbool true) ∧
    getField (extract_bill_data (Except.ok [])) "error" = some Val.vnull ∧
    extract_bill_data (Except.error "boom") =
      Val.vobj [("is_success", Val.vbool false), ("data", Val.vnull),
                ("error", Val.vstr "Processing failed: boom")] :=
  ⟨rfl, rfl, rfl, rfl, rfl, rfl⟩

/-- If some row of the list contains "printed" and not "category
total", the extraction scan of that list produces the same items as the
scan of the list truncated just before that row. -/
theorem itemsLoop_take (b : Bounds) :
    ∀ (l : List Row) (k : Nat) (hk : k < l.length),
      strContains (rowText (l.get ⟨k, hk⟩)) "printed" = true →
      strContains (rowText (l.get ⟨k, hk⟩)) "category total" = false →
      itemsLoop b l = itemsLoop b (l.take k) := by
  intro l
  induction l with
  | nil =>
    intro k hk
    exact absurd hk (by simp)
  | cons r rest ih =>
    intro k hk hp hc
    cases k with
    | zero =>
      simp only [List.get] at hp hc
      simp only [List.take_zero]
      show itemsLoop b (r :: rest) = itemsLoop b []
      unfold itemsLoop
      simp [hc, hp]
    | succ k =>
      have hk2 : k < rest.length := by
        simpa using hk
      have hp2 : strContains (rowText (rest.get ⟨k, hk2⟩)) "printed" = true := by
        simpa using hp
      have hc2 : strContains (rowText (rest.get ⟨k, hk2⟩)) "category total" = false := by
        simpa using hc
      have hrec := ih k hk2 hp2 hc2
      simp only [List.take_succ_cons]
      show itemsLoop b (r :: rest) = itemsLoop b (r :: rest.take k)
      unfold itemsLoop
      rw [hrec]

/-- Claim C7 (amended): a row strictly after the header whose lowered
text contains "printed" but not "category total" halts extraction — the
result equals extraction over the rows truncated before that row, so no
line item arises from it or from any later row. (A row containing both
"category total" and "printed" is skipped instead, because the
"category total" test comes first.) -/
theorem claim7_printed_halts (rows : List Row) (i j : Nat) (b : Bounds)
    (hij : i < j) (hj : j < rows.length)
    (hp : strContains (rowText (rows.get ⟨j, hj⟩)) "printed" = true)
    (hc : strContains (rowText (rows.get ⟨j, hj⟩)) "category total" = false) :
    extract_line_items rows (some i) (some b) =
      extract_line_items (rows.take j) (some i) (some b) := by
  show itemsLoop b (rows.drop (i + 1)) = itemsLoop b ((rows.take j).drop (i + 1))
  have hd : j - (i + 1) < (rows.drop (i + 1)).length := by
    rw [List.length_drop]
    omega
  have hsum : (i + 1) + (j - (i + 1)) < rows.length := by
    omega
  have hget : (rows.drop (i + 1)).get ⟨j - (i + 1), hd⟩ = rows.get ⟨j, hj⟩ := by
    have h1 : (rows.drop (i + 1)).get ⟨j - (i + 1), hd⟩ = rows.get ⟨(i + 1) + (j - (i + 1)), hsum⟩ := by
      simp [List.get_eq_getElem, List.getElem_drop]
    rw [h1]
    exact congrArg rows.get (Fin.ext (show (i + 1) + (j - (i + 1)) = j by omega))
  have hmain := itemsLoop_take b (rows.drop (i + 1)) (j - (i + 1)) hd
    (by rw [hget]; exact hp) (by rw [hget]; exact hc)
  rw [hmain, List.drop_take]

/-- Claim C7, counterexample to the claim as stated: the second row's
text contains "printed", yet because it also contains "category total"
the scan skips it rather than halting, and the third row still yields a
line item — a LineItem is produced from a row after the
"printed"-containing row. -/
theorem claim7_counterexample :
    strContains
      (rowText [((10 : Int), "category"), ((40 : Int), "total"), ((60 : Int), "printed")])
      "printed" = true ∧
    extract_line_items
      [[((10 : Int), "Description"), ((200 : Int), "Qty"), ((300 : Int), "Rate"),
        ((400 : Int), "Amount")],
       [((10 : Int), "category"), ((40 : Int), "total"), ((60 : Int), "printed")],
       [((10 : Int), "Thing"), ((410 : Int), "7.00")]]
      (some 0) (some ⟨some 105, some 250, some 350⟩) = [⟨"Thing", 1, 7, 7⟩] := by
  with_unfolding_all decide

/-- Claim C7 witness: a two-row document whose second row is a pure
"printed" footer; extraction equals extraction of the truncated list. -/
theorem claim7_witness :
    extract_line_items [[], [((0 : Int), "printed")]] (some 0)
        (some ⟨none, none, none⟩) =
      extract_line_items ([[], [((0 : Int), "printed")]].take 1) (some 0)
        (some ⟨none, none, none⟩) :=
  claim7_printed_halts [[], [((0 : Int), "printed")]] 0 1 ⟨none, none, none⟩
    (by omega) (by decide) (by decide) (by decide)

/-- Every item emitted by the extraction scan arises from one of the
scanned rows via rowToItem. -/
theorem itemsLoop_mem (b : Bounds) :
    ∀ (l : List Row) (it : LineItem), it ∈ itemsLoop b l →
      ∃ row ∈ l, rowToItem b row = some it := by
  intro l
  induction l with
  | nil =>
    intro it h
    simp [itemsLoop] at h
  | cons r rest ih =>
    intro it h
    unfold itemsLoop at h
    by_cases h1 : strContains (rowText r) "category total" = true
    · simp only [h1, if_true] at h
      obtain ⟨row, hr, he⟩ := ih it h
      exact ⟨row, List.mem_cons_of_mem r hr, he⟩
    · by_cases h2 : strContains (rowText r) "printed" = true
      · simp [h1, h2] at h
      · cases hro : rowToItem b r with
        | none =>
          simp [h1, h2, hro] at h
          obtain ⟨row, hr, he⟩ := ih it h
          exact ⟨row, List.mem_cons_of_mem r hr, he⟩
        | some it2 =>
          simp [h1, h2, hro] at h
          cases h with
          | inl he => exact ⟨r, List.mem_cons_self r rest, by rw [hro, he]⟩
          | inr hrest =>
            obtain ⟨row, hr, he⟩ := ih it hrest
            exact ⟨row, List.mem_cons_of_mem r hr, he⟩

/-- Field characterization of an emitted item: the amount is the first
coercible amount-bucket token; the quantity is the coerced quantity
bucket except that absence or zero yields 1; the rate is the coerced
rate bucket except that absence or zero yields the amount. -/
theorem rowToItem_fields (b : Bounds) (row : Row) (it : LineItem)
    (h : rowToItem b row = some it) :
    (∃ a, firstNum (bucket b row Col.amt) = some a ∧ it.item_amount = a) ∧
    it.item_quantity = (match as_number (concatStrs (bucket b row Col.qty)) with
      | none => 1
      | some q => if q = 0 then 1 else q) ∧
    it.item_rate = (match as_number (concatStrs (bucket b row Col.rate)) with
      | none => it.item_amount
      | some r => if r = 0 then it.item_amount else r) := by
  unfold rowToItem at h
  cases ha : firstNum (bucket b row Col.amt) with
  | none => simp [ha] at h
  | some a =>
    simp only [ha] at h
    by_cases hd : (strip_serial (trimStr (joinSpace (bucket b row Col.desc)))).data.isEmpty
    · simp [hd] at h
    · simp only [hd, Bool.false_eq_true, if_false] at h
      rw [Option.some_inj] at h
      subst h
      exact ⟨⟨a, rfl, rfl⟩, rfl, rfl⟩

/-- Claim C9 (amended): every emitted LineItem comes from a row after
the header; its item_amount is the first coercible amount-bucket token
(rows whose amount bucket has no coercible token produce no item); its
item_quantity is the coerced quantity bucket, defaulting to 1 exactly
when that value is absent or zero; its item_rate is the coerced rate
bucket, defaulting to item_amount exactly when that value is absent or
zero. -/
theorem claim9_fields_and_provenance :
    (∀ (rows : List Row) (i : Nat) (b : Bounds) (it : LineItem),
        it ∈ extract_line_items rows (some i) (some b) →
        ∃ row ∈ rows.drop (i + 1), rowToItem b row = some it ∧
          (∃ a, firstNum (bucket b row Col.amt) = some a ∧ it.item_amount = a) ∧
          it.item_quantity = (match as_number (concatStrs (bucket b row Col.qty)) with
            | none => 1
            | some q => if q = 0 then 1 else q) ∧
          it.item_rate = (match as_number (concatStrs (bucket b row Col.rate)) with
            | none => it.item_amount
            | some r => if r = 0 then it.item_amount else r)) ∧
    (∀ (b : Bounds) (row : Row),
        firstNum (bucket b row Col.amt) = none → rowToItem b row = none) := by
  constructor
  · intro rows i b it h
    obtain ⟨row, hr, he⟩ := itemsLoop_mem b (rows.drop (i + 1)) it h
    obtain ⟨hamt, hq, hr2⟩ := rowToItem_fields b row it he
    exact ⟨row, hr, he, hamt, hq, hr2⟩
  · intro b row h
    unfold rowToItem
    simp [h]

/-- Claim C9, counterexample to the claim as stated: a row whose
quantity bucket coerces to 0 (a present value) still gets
item_quantity 1, so the default is not applied "exactly when that value
is absent". -/
theorem claim9_counterexample :
    extract_line_items
        [[], [((10 : Int), "Thing"), ((210 : Int), "0"), ((410 : Int), "8.00")]]
        (some 0) (some ⟨some 105, some 250, some 350⟩) =
      [⟨"Thing", 1, 8, 8⟩] ∧
    as_number "0" = some 0 ∧
    (1 : ℚ) ≠ 0 := by
  with_unfolding_all decide

/-- Claim C9 witness: both parts of the amended statement applied at
concrete inputs. -/
theorem claim9_witness :
    (∃ row ∈ ([[], [((0 : Int), "x"), ((100000 : Int), "2")]] : List Row).drop (0 + 1),
        rowToItem ⟨none, none, none⟩ row = some ⟨"x", 1, 2, 2⟩ ∧
        (∃ a, firstNum (bucket ⟨none, none, none⟩ row Col.amt) = some a ∧
          (⟨"x", 1, 2, 2⟩ : LineItem).item_amount = a) ∧
        (⟨"x", 1, 2, 2⟩ : LineItem).item_quantity =
          (match as_number (concatStrs (bucket ⟨none, none, none⟩ row Col.qty)) with
            | none => 1
            | some q => if q = 0 then 1 else q) ∧
        (⟨"x", 1, 2, 2⟩ : LineItem).item_rate =
          (match as_number (concatStrs (bucket ⟨none, none, none⟩ row Col.rate)) with
            | none => (⟨"x", 1, 2, 2⟩ : LineItem).item_amount
            | some r => if r = 0 then (⟨"x", 1, 2, 2⟩ : LineItem).item_amount else r)) ∧
    rowToItem ⟨none, none, none⟩ [((10 : Int), "OnlyDesc")] = none := by
  constructor
  · exact claim9_fields_and_provenance.1 [[], [((0 : Int), "x"), ((100000 : Int), "2")]] 0
      ⟨none, none, none⟩ ⟨"x", 1, 2, 2⟩ (by with_unfolding_all decide)
  · exact claim9_fields_and_provenance.2 ⟨none, none, none⟩ [((10 : Int), "OnlyDesc")]
      (by with_unfolding_all decide)

/-- Inserting into a sorted integer list adds one element. -/
theorem insInt_length (a : Int) (l : List Int) : (insInt a l).length = l.length + 1 := by
  induction l with
  | nil => rfl
  | cons b bs ih =>
    unfold insInt
    by_cases h : b < a
    · simp [h, ih]
    · simp [h]

/-- Sorting preserves length. -/
theorem sortInt_length (l : List Int) : (sortInt l).length = l.length := by
  induction l with
  | nil => rfl
  | cons a rest ih =>
    unfold sortInt
    rw [insInt_length, ih]
    rfl

/-- A slot counts at most once. -/
theorem optCount_le_one (o : Option Int) : optCount o ≤ 1 := by
  cases o <;> simp [optCount]

/-- The sorted position list has as many entries as there are filled
slots. -/
theorem posList_length (p : Positions) : (posList p).length = filledCount p := by
  obtain ⟨d, q, r, a⟩ := p
  unfold posList
  rw [sortInt_length]
  cases d <;> cases q <;> cases r <;> cases a <;> rfl

/-- One classification step fills at most one new slot. -/
theorem filled_updatePos (p : Positions) (x : Int) (w : String) :
    filledCount (updatePos p x w) ≤ filledCount p + 1 := by
  obtain ⟨d, q, r, a⟩ := p
  have hd := optCount_le_one d
  have hq := optCount_le_one q
  have hr := optCount_le_one r
  have ha := optCount_le_one a
  simp only [updatePos]
  split_ifs <;> simp only [filledCount, optCount] <;> omega

/-- A token matching no label leaves the slots unchanged. -/
theorem updatePos_not_label (p : Positions) (x : Int) (w : String)
    (h : isLabelTok w = false) : updatePos p x w = p := by
  unfold isLabelTok at h
  simp only [Bool.or_eq_false_iff] at h
  obtain ⟨⟨⟨⟨⟨h1, h2⟩, h3⟩, h4⟩, h5⟩, h6⟩ := h
  unfold updatePos
  simp [h1, h2, h3, h4, h5, h6]

/-- Classifying a row fills at most as many slots as it has
label-matching tokens. -/
theorem filled_foldl (l : Row) (p : Positions) :
    filledCount (l.foldl (fun p t => updatePos p t.1 t.2) p) ≤
      filledCount p + (l.filter (fun t => isLabelTok t.2)).length := by
  induction l generalizing p with
  | nil => simp
  | cons t rest ih =>
    simp only [List.foldl_cons, List.filter_cons]
    by_cases h : isLabelTok t.2
    · simp only [h, if_true, List.length_cons]
      have h1 := ih (updatePos p t.1 t.2)
      have h2 := filled_updatePos p t.1 t.2
      omega
    · have hb : isLabelTok t.2 = false := by simpa using h
      rw [updatePos_not_label p t.1 t.2 hb]
      simp only [hb, Bool.false_eq_true, if_false]
      exact ih p

/-- With at most one position, no midpoint guard fires. -/
theorem boundsFromXs_short (xs : List Int) (h : xs.length ≤ 1) :
    boundsFromXs xs = ⟨none, none, none⟩ := by
  cases xs with
  | nil => rfl
  | cons x t =>
    cases t with
    | nil => rfl
    | cons y t2 =>
      simp only [List.length_cons] at h
      omega

/-- What a successful header scan means: the reported index addresses a
row satisfying the predicate. -/
theorem findHeaderAux_spec :
    ∀ (rows : List Row) (n i : Nat) (r : Row),
      findHeaderAux rows n = some (i, r) →
      ∃ k, i = n + k ∧ rows.get? k = some r ∧ headerPred r = true := by
  intro rows
  induction rows with
  | nil =>
    intro n i r h
    simp [findHeaderAux] at h
  | cons r0 rest ih =>
    intro n i r h
    unfold findHeaderAux at h
    by_cases hp : headerPred r0
    · simp only [hp, if_true, Option.some.injEq, Prod.mk.injEq] at h
      obtain ⟨hi, hr⟩ := h
      exact ⟨0, by omega, by simp [← hr], by rw [← hr]; exact hp⟩
    · simp only [hp, Bool.false_eq_true, if_false] at h
      obtain ⟨k, hk, hg, hhp⟩ := ih (n + 1) i r h
      exact ⟨k + 1, by omega, by simpa using hg, hhp⟩

/-- Claim C10: the header locator's two outputs are coupled — the index
is absent exactly when the boundary mapping is absent — and on success
the mapping comes from the first matching row; when that row has fewer
than two label-classifiable tokens the mapping is present but empty,
and the extractor still scans the rows after the header rather than
returning through its absent-input short-circuit. -/
theorem claim10_header_outputs_coupled :
    (∀ rows : List Row,
        ((find_table_header rows).1 = none ↔ (find_table_header rows).2 = none)) ∧
    (∀ (rows : List Row) (i : Nat) (b : Bounds),
        find_table_header rows = (some i, some b) →
        ∃ row : Row, rows.get? i = some row ∧ headerPred row = true ∧
          b = boundariesOf row ∧
          ((row.filter (fun t => isLabelTok t.2)).length < 2 → b = ⟨none, none, none⟩) ∧
          extract_line_items rows (some i) (some b) = itemsLoop b (rows.drop (i + 1))) := by
  constructor
  · intro rows
    unfold find_table_header
    cases h : findHeaderAux rows 0 with
    | none => simp
    | some p => simp
  · intro rows i b h
    unfold find_table_header at h
    cases hf : findHeaderAux rows 0 with
    | none =>
      rw [hf] at h
      simp at h
    | some p =>
      obtain ⟨k, r⟩ := p
      rw [hf] at h
      simp only [Prod.mk.injEq, Option.some.injEq] at h
      obtain ⟨hik, hbr⟩ := h
      obtain ⟨m, hm, hg, hhp⟩ := findHeaderAux_spec rows 0 k r hf
      refine ⟨r, ?_, hhp, hbr.symm, ?_, rfl⟩
      · have hmi : i = m := by omega
        rw [hmi]
        exact hg
      · intro hcl
        rw [← hbr]
        unfold boundariesOf
        apply boundsFromXs_short
        rw [posList_length]
        unfold positionsOf
        have h2 := filled_foldl r ⟨none, none, none, none⟩
        have h0 : filledCount ⟨none, none, none, none⟩ = 0 := rfl
        omega

/-- Claim C10 witness: a header row whose single token "qtyamount"
matches the header predicate but fills only one slot, giving an empty
but present boundary mapping, with the extractor equation instantiated. -/
theorem claim10_witness :
    ∃ row : Row, ([[((5 : Int), "qtyamount")]] : List Row).get? 0 = some row ∧
      headerPred row = true ∧
      (⟨none, none, none⟩ : Bounds) = boundariesOf row ∧
      ((row.filter (fun t => isLabelTok t.2)).length < 2 →
        (⟨none, none, none⟩ : Bounds) = ⟨none, none, none⟩) ∧
      extract_line_items [[((5 : Int), "qtyamount")]] (some 0) (some ⟨none, none, none⟩) =
        itemsLoop ⟨none, none, none⟩ ([[((5 : Int), "qtyamount")]].drop (0 + 1)) :=
  claim10_header_outputs_coupled.2 [[((5 : Int), "qtyamount")]] 0 ⟨none, none, none⟩
    (by with_unfolding_all decide)
